import Mathlib

/-!
Verification of the query-construction and identifier-safety layer of
mcp-localbridge (`src/db/query_builder.go`, plus the superseding revision of
`BuildTableSchema` found in `src/unnamed/part_010`).

The Go code is shallowly embedded: Go strings are Lean `String`s (character
operations are carried out on `List Char` via `String.data`); the untyped
condition map `map[string]any` becomes an association list of `String × Value`
whose list order represents one possible iteration order of the Go map range
(Go map iteration order is unspecified, so properties quantify over all
orders); Go's `(string, []any, error)` results become
`String × List Value × Option String`.  Character classifications mirror the
Go source restricted to ASCII, which covers every character class the source
tests for.
-/

namespace DB

/-- Scalar condition values.  The Go source receives `map[string]any`; the
spec restricts values to string / number / bool scalars, and the only
type-dependent behaviour in the builder is the `value.(string)` assertion in
the LIKE heuristic. -/
inductive Value where
  | str (s : String)
  | int (n : Int)
  | bool (b : Bool)
deriving DecidableEq

/-- ASCII whitespace, as recognised by Go's `unicode.IsSpace` on ASCII input:
tab (9), LF (10), VT (11), FF (12), CR (13), space (32). -/
def isSpaceChar (c : Char) : Bool :=
  c.toNat = 32 || c.toNat = 9 || c.toNat = 10 || c.toNat = 11 || c.toNat = 12 || c.toNat = 13

/-- The character class of `isValidIdentifier` (query_builder.go:160-163):
`[a-z]` (97-122), `[A-Z]` (65-90), `[0-9]` (48-57), `_` (95), `.` (46). -/
def isIdentChar (c : Char) : Bool :=
  (97 ≤ c.toNat && c.toNat ≤ 122) || (65 ≤ c.toNat && c.toNat ≤ 90) ||
    (48 ≤ c.toNat && c.toNat ≤ 57) || c.toNat = 95 || c.toNat = 46

/-- `isValidIdentifier` on a character list (query_builder.go:154-166):
empty is invalid, otherwise every character must be an identifier character. -/
def isValidIdentList (l : List Char) : Bool :=
  match l with
  | [] => false
  | _ => l.all isIdentChar

/-- `isValidIdentifier` (query_builder.go:154-166). -/
def isValidIdentifier (s : String) : Bool :=
  isValidIdentList s.data

/-- Drop the leading characters of `l` that belong to `cut`
(left half of Go's `strings.Trim`). -/
def trimLeftChars (cut : List Char) (l : List Char) : List Char :=
  l.dropWhile (fun c => cut.contains c)

/-- Go's `strings.Trim l cut`: drop leading and trailing characters found in
`cut`. -/
def trimChars (cut : List Char) (l : List Char) : List Char :=
  ((trimLeftChars cut l).reverse.dropWhile (fun c => cut.contains c)).reverse

/-- The cutset `"` ++ backtick of `strings.Trim(identifier, "`\"")`
(query_builder.go:125): backtick (96) and double quote (34). -/
def quoteCutset : List Char := [Char.ofNat 96, Char.ofNat 34]

/-- The quote-stripping step of `quoteIdentifier` (query_builder.go:125). -/
def trimQuotes (s : String) : String :=
  ⟨trimChars quoteCutset s.data⟩

/-- Go's `strings.TrimSpace` on a character list. -/
def trimSpaceList (l : List Char) : List Char :=
  ((l.dropWhile isSpaceChar).reverse.dropWhile isSpaceChar).reverse

/-- Go's `strings.Split` with a one-character separator: cut at every
occurrence of `sep`, keeping empty pieces (always at least one piece; the
recursive call never returns `[]`, so `headD`/`tail` just name its head and
tail). -/
def splitOnChar (sep : Char) : List Char → List (List Char)
  | [] => [[]]
  | c :: rest =>
    let r := splitOnChar sep rest
    if c = sep then [] :: r else (c :: r.headD []) :: r.tail

/-- Accumulator loop for `fields`: `cur` is the current word, reversed. -/
def fieldsAux : List Char → List Char → List (List Char)
  | cur, [] => if cur.isEmpty then [] else [cur.reverse]
  | cur, c :: rest =>
    if isSpaceChar c then
      if cur.isEmpty then fieldsAux [] rest else cur.reverse :: fieldsAux [] rest
    else
      fieldsAux (c :: cur) rest

/-- Go's `strings.Fields`: split around runs of whitespace, no empty words. -/
def fields (l : List Char) : List (List Char) :=
  fieldsAux [] l

/-- The per-token check of `isValidOrderBy`'s inner loop
(query_builder.go:179-191): the first token must be a valid identifier, every
later token must be exactly `ASC` or `DESC` (the whole clause was already
upper-cased). -/
def checkOrderTokens : List (List Char) → Bool
  | [] => true
  | t0 :: rest =>
    isValidIdentList t0 && rest.all (fun t => t == "ASC".data || t == "DESC".data)

/-- `isValidOrderBy` on a character list (query_builder.go:168-195):
upper-case the trimmed clause, split on commas, and check the
whitespace-separated tokens of each (re-trimmed) part. -/
def isValidOrderByList (l : List Char) : Bool :=
  let u := (trimSpaceList l).map Char.toUpper
  (splitOnChar ',' u).all (fun part => checkOrderTokens (fields (trimSpaceList part)))

/-- `isValidOrderBy` (query_builder.go:168-195). -/
def isValidOrderBy (s : String) : Bool :=
  isValidOrderByList s.data

/-- `quote` (query_builder.go:137-143): double quotes for the `postgres`
driver, backticks for every other driver string (MySQL default). -/
def quote (driver s : String) : String :=
  if driver = "postgres" then "\"" ++ s ++ "\"" else "`" ++ s ++ "`"

/-- `placeholder` (query_builder.go:146-152): `$n` for the `postgres` driver,
the literal `?` for every other driver string. -/
def placeholder (driver : String) (position : Nat) : String :=
  if driver = "postgres" then "$" ++ toString position else "?"

/-- `quoteIdentifier` (query_builder.go:122-134): strip surrounding backticks
and double quotes, then quote for the dialect.  The source keeps an
`isValidIdentifier` check whose two branches return the same quoted string;
the `if` is reproduced as written. -/
def quoteIdentifier (driver s : String) : String :=
  let t := trimQuotes s
  if !(isValidIdentifier t) then quote driver t else quote driver t

/-- Go's `strings.Contains`: `sub` occurs contiguously inside `s`. -/
def Contains (s sub : String) : Bool :=
  decide (sub.data <:+: s.data)

/-- The LIKE heuristic of `BuildSelect`/`BuildCount` (query_builder.go:30):
a condition value triggers LIKE when it is a string containing `%` or `_`. -/
def isLikeValue : Value → Bool
  | .str s => Contains s "%" || Contains s "_"
  | _ => false

/-- The WHERE-building range loop of `BuildSelect` and `BuildCount`
(query_builder.go:28-36): each condition appends one clause (LIKE or `=`,
with placeholder position `len(params)+1`) and one parameter.  The input list
is the iteration order of the Go map range. -/
def buildWhereLoop (driver : String) :
    List (String × Value) → List String × List Value → List String × List Value
  | [], acc => acc
  | (key, value) :: rest, (wcs, ps) =>
    if isLikeValue value then
      buildWhereLoop driver rest
        (wcs ++ [quoteIdentifier driver key ++ " LIKE " ++ placeholder driver (ps.length + 1)],
         ps ++ [value])
    else
      buildWhereLoop driver rest
        (wcs ++ [quoteIdentifier driver key ++ " = " ++ placeholder driver (ps.length + 1)],
         ps ++ [value])

/-- The WHERE-building range loop of `BuildAggregation`
(query_builder.go:107-110): always `=`, no LIKE heuristic. -/
def buildWhereLoopAgg (driver : String) :
    List (String × Value) → List String × List Value → List String × List Value
  | [], acc => acc
  | (key, value) :: rest, (wcs, ps) =>
    buildWhereLoopAgg driver rest
      (wcs ++ [quoteIdentifier driver key ++ " = " ++ placeholder driver (ps.length + 1)],
       ps ++ [value])

/-- `BuildSelect` (query_builder.go:21-58). -/
def BuildSelect (driver table : String) (conditions : List (String × Value))
    (limit offset : Int) (orderBy : String) : String × List Value :=
  let query := "SELECT * FROM " ++ quoteIdentifier driver table
  let wp := buildWhereLoop driver conditions ([], [])
  let query := if 0 < conditions.length then
      query ++ " WHERE " ++ String.intercalate " AND " wp.1
    else query
  let query := if orderBy ≠ "" then
      (if isValidOrderBy orderBy then query ++ " ORDER BY " ++ orderBy else query)
    else query
  let query := if 0 < limit then query ++ " LIMIT " ++ toString limit else query
  let query := if 0 < offset then query ++ " OFFSET " ++ toString offset else query
  (query, wp.2)

/-- `BuildCount` (query_builder.go:61-80). -/
def BuildCount (driver table : String) (conditions : List (String × Value)) :
    String × List Value :=
  let query := "SELECT COUNT(*) FROM " ++ quoteIdentifier driver table
  let wp := buildWhereLoop driver conditions ([], [])
  let query := if 0 < conditions.length then
      query ++ " WHERE " ++ String.intercalate " AND " wp.1
    else query
  (query, wp.2)

/-- Go's `strings.ToUpper` (ASCII case mapping, which is all the source
exercises: aggregate names and ORDER BY clauses). -/
def toUpperStr (s : String) : String :=
  ⟨s.data.map Char.toUpper⟩

/-- The aggregate-function allow-list of `BuildAggregation`
(query_builder.go:86-88). -/
def validAggFuncs : List String := ["SUM", "AVG", "MIN", "MAX", "COUNT"]

/-- `BuildAggregation` (query_builder.go:84-120).  The Go signature
`(string, []any, error)` is embedded as `String × List Value × Option String`;
the error case returns `("", nil, err)` exactly as the source does. -/
def BuildAggregation (driver table column aggFunc : String)
    (conditions : List (String × Value)) (groupBy : String) :
    String × List Value × Option String :=
  let f := toUpperStr aggFunc
  if !(validAggFuncs.contains f) then
    ("", [], some ("invalid aggregate function: " ++ f))
  else
    let selectClause := f ++ "(" ++ quoteIdentifier driver column ++ ") as result"
    let selectClause := if groupBy ≠ "" ∧ isValidIdentifier groupBy = true then
        quoteIdentifier driver groupBy ++ ", " ++ selectClause
      else selectClause
    let query := "SELECT " ++ selectClause ++ " FROM " ++ quoteIdentifier driver table
    let wp := buildWhereLoopAgg driver conditions ([], [])
    let query := if 0 < conditions.length then
        query ++ " WHERE " ++ String.intercalate " AND " wp.1
      else query
    let query := if groupBy ≠ "" ∧ isValidIdentifier groupBy = true then
        query ++ " GROUP BY " ++ quoteIdentifier driver groupBy
      else query
    (query, wp.2, none)

/-- A one-character string holding a single quote (char 39), used to spell
out the SQL literals of the catalog queries. -/
def sq : String := ⟨[Char.ofNat 39]⟩

/-- The superseded `BuildTableSchema` of `src/db/query_builder.go:213-248`:
the table (and schema) names are spliced into the catalog SQL text by
`fmt.Sprintf` with no validation, and no error can be reported. -/
def legacyBuildTableSchema (driver table schema : String) : String :=
  if driver = "postgres" then
    let schemaFilter := if schema ≠ "" then schema else "public"
    "\n\t\t\tSELECT\n\t\t\t\tcolumn_name,\n\t\t\t\tdata_type,\n\t\t\t\tis_nullable,\n\t\t\t\tcolumn_default,\n\t\t\t\tCASE WHEN column_name IN (\n\t\t\t\t\tSELECT column_name FROM information_schema.key_column_usage\n\t\t\t\t\tWHERE table_name = "
      ++ sq ++ table ++ sq ++ " AND constraint_name LIKE " ++ sq ++ "%pkey" ++ sq
      ++ "\n\t\t\t\t) THEN true ELSE false END as is_primary_key\n\t\t\tFROM information_schema.columns\n\t\t\tWHERE table_name = "
      ++ sq ++ table ++ sq ++ " AND table_schema = " ++ sq ++ schemaFilter ++ sq
      ++ "\n\t\t\tORDER BY ordinal_position"
  else
    let schemaFilter := if schema ≠ "" then sq ++ schema ++ sq else "DATABASE()"
    "\n\t\tSELECT\n\t\t\tcolumn_name,\n\t\t\tdata_type,\n\t\t\tis_nullable,\n\t\t\tcolumn_default,\n\t\t\tcolumn_key = "
      ++ sq ++ "PRI" ++ sq
      ++ " as is_primary_key\n\t\tFROM information_schema.columns\n\t\tWHERE table_name = "
      ++ sq ++ table ++ sq ++ " AND table_schema = " ++ schemaFilter
      ++ "\n\t\tORDER BY ordinal_position"

/-- The superseding `BuildTableSchema` of `src/unnamed/part_010:226-288`:
the table name is identifier-validated (hard error on failure) and bound as a
parameter; an explicitly supplied schema name is validated the same way. -/
def BuildTableSchema (driver table schema : String) :
    String × List Value × Option String :=
  if !(isValidIdentifier table) then
    ("", [], some ("invalid table name: " ++ table))
  else if driver = "postgres" then
    if schema ≠ "" ∧ isValidIdentifier schema = false then
      ("", [], some ("invalid schema name: " ++ schema))
    else
      let schemaFilter := if schema ≠ "" then schema else "public"
      ("\n\t\t\tSELECT\n\t\t\t\tcolumn_name,\n\t\t\t\tdata_type,\n\t\t\t\tis_nullable,\n\t\t\t\tcolumn_default,\n\t\t\t\tCASE WHEN column_name IN (\n\t\t\t\t\tSELECT column_name FROM information_schema.key_column_usage\n\t\t\t\t\tWHERE table_name = $1 AND constraint_name LIKE "
        ++ sq ++ "%pkey" ++ sq
        ++ "\n\t\t\t\t) THEN true ELSE false END as is_primary_key\n\t\t\tFROM information_schema.columns\n\t\t\tWHERE table_name = $2 AND table_schema = $3\n\t\t\tORDER BY ordinal_position",
        [Value.str table, Value.str table, Value.str schemaFilter], none)
  else
    if schema ≠ "" then
      if !(isValidIdentifier schema) then
        ("", [], some ("invalid schema name: " ++ schema))
      else
        ("\n\t\t\tSELECT\n\t\t\t\tcolumn_name,\n\t\t\t\tdata_type,\n\t\t\t\tis_nullable,\n\t\t\t\tcolumn_default,\n\t\t\t\tcolumn_key = "
          ++ sq ++ "PRI" ++ sq
          ++ " as is_primary_key\n\t\t\tFROM information_schema.columns\n\t\t\tWHERE table_name = ? AND table_schema = ?\n\t\t\tORDER BY ordinal_position",
          [Value.str table, Value.str schema], none)
    else
      ("\n\t\tSELECT\n\t\t\tcolumn_name,\n\t\t\tdata_type,\n\t\t\tis_nullable,\n\t\t\tcolumn_default,\n\t\t\tcolumn_key = "
        ++ sq ++ "PRI" ++ sq
        ++ " as is_primary_key\n\t\tFROM information_schema.columns\n\t\tWHERE table_name = ? AND table_schema = DATABASE()\n\t\tORDER BY ordinal_position",
        [Value.str table], none)

/-! ### Closed forms for the WHERE-building loops -/

/-- Closed form of the clause list emitted by `buildWhereLoop` when `k`
parameters were already bound: clause `i` (0-based) quotes the `i`-th key,
chooses LIKE or `=` from the `i`-th value, and uses placeholder position
`k + i + 1`. -/
def whereClausesFrom (driver : String) (k : Nat) : List (String × Value) → List String
  | [] => []
  | (key, v) :: rest =>
    (quoteIdentifier driver key ++ (if isLikeValue v then " LIKE " else " = ")
        ++ placeholder driver (k + 1))
      :: whereClausesFrom driver (k + 1) rest

/-- Closed form of the clause list emitted by `buildWhereLoopAgg`:
always `=`. -/
def aggClausesFrom (driver : String) (k : Nat) : List (String × Value) → List String
  | [] => []
  | (key, _) :: rest =>
    (quoteIdentifier driver key ++ " = " ++ placeholder driver (k + 1))
      :: aggClausesFrom driver (k + 1) rest

lemma buildWhereLoop_eq (driver : String) (cs : List (String × Value)) :
    ∀ wcs ps, buildWhereLoop driver cs (wcs, ps) =
      (wcs ++ whereClausesFrom driver ps.length cs, ps ++ cs.map Prod.snd) := by
  induction cs with
  | nil => intro wcs ps; simp [buildWhereLoop, whereClausesFrom]
  | cons hd tl ih =>
    intro wcs ps
    obtain ⟨key, v⟩ := hd
    by_cases h : isLikeValue v <;>
      simp [buildWhereLoop, whereClausesFrom, h, ih, List.append_assoc]

lemma buildWhereLoopAgg_eq (driver : String) (cs : List (String × Value)) :
    ∀ wcs ps, buildWhereLoopAgg driver cs (wcs, ps) =
      (wcs ++ aggClausesFrom driver ps.length cs, ps ++ cs.map Prod.snd) := by
  induction cs with
  | nil => intro wcs ps; simp [buildWhereLoopAgg, aggClausesFrom]
  | cons hd tl ih =>
    intro wcs ps
    obtain ⟨key, v⟩ := hd
    simp [buildWhereLoopAgg, aggClausesFrom, ih, List.append_assoc]

lemma whereClausesFrom_length (driver : String) (k : Nat) (cs : List (String × Value)) :
    (whereClausesFrom driver k cs).length = cs.length := by
  induction cs generalizing k with
  | nil => simp [whereClausesFrom]
  | cons hd tl ih => obtain ⟨key, v⟩ := hd; simp [whereClausesFrom, ih]

lemma getElem_at_append_len {α : Type} (l₁ : List α) (a : α) (l₂ : List α) :
    (l₁ ++ a :: l₂)[l₁.length]? = some a := by
  induction l₁ with
  | nil => simp
  | cons x xs ih => simpa using ih

lemma whereClausesFrom_getElem (driver : String) :
    ∀ (pre : List (String × Value)) (key : String) (v : Value)
      (post : List (String × Value)) (k : Nat),
      (whereClausesFrom driver k (pre ++ (key, v) :: post))[pre.length]? =
        some (quoteIdentifier driver key ++ (if isLikeValue v then " LIKE " else " = ")
          ++ placeholder driver (k + pre.length + 1)) := by
  intro pre
  induction pre with
  | nil => intro key v post k; simp [whereClausesFrom]
  | cons hd tl ih =>
    intro key v post k
    obtain ⟨key0, v0⟩ := hd
    have h := ih key v post (k + 1)
    have harith : k + 1 + tl.length + 1 = k + (tl.length + 1) + 1 := by omega
    simpa [whereClausesFrom, harith] using h

lemma aggClausesFrom_getElem (driver : String) :
    ∀ (pre : List (String × Value)) (key : String) (v : Value)
      (post : List (String × Value)) (k : Nat),
      (aggClausesFrom driver k (pre ++ (key, v) :: post))[pre.length]? =
        some (quoteIdentifier driver key ++ " = "
          ++ placeholder driver (k + pre.length + 1)) := by
  intro pre
  induction pre with
  | nil => intro key v post k; simp [aggClausesFrom]
  | cons hd tl ih =>
    intro key v post k
    obtain ⟨key0, v0⟩ := hd
    have h := ih key v post (k + 1)
    have harith : k + 1 + tl.length + 1 = k + (tl.length + 1) + 1 := by omega
    simpa [aggClausesFrom, harith] using h

/-- The clause text of `buildWhereLoop` depends on the condition values only
through the LIKE flag; the values themselves are never spliced. -/
lemma whereClausesFrom_congr (driver : String) :
    ∀ (cs cs' : List (String × Value)) (k : Nat),
      cs.map Prod.fst = cs'.map Prod.fst →
      cs.map (fun p => isLikeValue p.2) = cs'.map (fun p => isLikeValue p.2) →
      whereClausesFrom driver k cs = whereClausesFrom driver k cs' := by
  intro cs
  induction cs with
  | nil =>
    intro cs' k hk _
    cases cs' with
    | nil => rfl
    | cons hd tl => simp at hk
  | cons hd tl ih =>
    intro cs' k hk hf
    cases cs' with
    | nil => simp at hk
    | cons hd' tl' =>
      obtain ⟨key, v⟩ := hd
      obtain ⟨key', v'⟩ := hd'
      simp only [List.map_cons, List.cons.injEq] at hk hf
      simp [whereClausesFrom, hk.1, hf.1, ih tl' (k + 1) hk.2 hf.2]

/-- The clause text of `buildWhereLoopAgg` depends only on the condition
keys. -/
lemma aggClausesFrom_congr (driver : String) :
    ∀ (cs cs' : List (String × Value)) (k : Nat),
      cs.map Prod.fst = cs'.map Prod.fst →
      aggClausesFrom driver k cs = aggClausesFrom driver k cs' := by
  intro cs
  induction cs with
  | nil =>
    intro cs' k hk
    cases cs' with
    | nil => rfl
    | cons hd tl => simp at hk
  | cons hd tl ih =>
    intro cs' k hk
    cases cs' with
    | nil => simp at hk
    | cons hd' tl' =>
      obtain ⟨key, v⟩ := hd
      obtain ⟨key', v'⟩ := hd'
      simp only [List.map_cons, List.cons.injEq] at hk
      simp [aggClausesFrom, hk.1, ih tl' (k + 1) hk.2]

/-- `quoteIdentifier` in closed form: the validation check is inert, both of
its branches quote the stripped identifier. -/
lemma quoteIdentifier_eq_quote_trim (driver s : String) :
    quoteIdentifier driver s = quote driver (trimQuotes s) := by
  simp only [quoteIdentifier]
  split <;> rfl

/-! ### Claim theorems -/

/-- C10: `quoteIdentifier` is validation-insensitive — it strips leading and
trailing backtick / double-quote characters and dialect-quotes the stripped
string, returning the same value whether or not the stripped string passes
`isValidIdentifier`; consequently an invalid table name or condition key is
still quoted into the query text (including one with interior spaces or an
interior backtick). -/
theorem C10_quoteIdentifier_validation_insensitive :
    (∀ driver s, quoteIdentifier driver s = quote driver (trimQuotes s)) ∧
    quoteIdentifier "mysql" "`users`" = "`users`" ∧
    quoteIdentifier "postgres" "\"users\"" = "\"users\"" ∧
    isValidIdentifier "bad col" = false ∧
    (BuildSelect "mysql" "t" [("bad col", Value.int 1)] 0 0 "").1 =
      "SELECT * FROM `t` WHERE `bad col` = ?" ∧
    isValidIdentifier "a`b" = false ∧
    (BuildSelect "mysql" "a`b" [] 0 0 "").1 = "SELECT * FROM `a`b`" :=
  ⟨quoteIdentifier_eq_quote_trim, by decide, by decide, by decide, by decide,
    by decide, by decide⟩

/-- C3: dialect adapter — for the `postgres` driver string, `quote` wraps in
double quotes and `placeholder n` is `$n`; for `mysql` and every other driver
string, `quote` wraps in backticks and `placeholder` is the literal `?`.  The
placeholder ordinal is 1-based and equals the position of the bound value in
the parameter list: for a condition at 0-based index `i` of the iteration
order, the emitted clause uses placeholder position `i + 1` and the parameter
list holds that condition's value at index `i`. -/
theorem C3_dialect_adapter :
    (∀ s, quote "postgres" s = "\"" ++ s ++ "\"") ∧
    (∀ n, placeholder "postgres" n = "$" ++ toString n) ∧
    (∀ driver s, driver ≠ "postgres" → quote driver s = "`" ++ s ++ "`") ∧
    (∀ driver n, driver ≠ "postgres" → placeholder driver n = "?") ∧
    (∀ driver cs (pre : List (String × Value)) key v post,
      cs = pre ++ (key, v) :: post →
      ((buildWhereLoop driver cs ([], [])).1)[pre.length]? =
        some (quoteIdentifier driver key
          ++ (if isLikeValue v then " LIKE " else " = ")
          ++ placeholder driver (pre.length + 1)) ∧
      ((buildWhereLoop driver cs ([], [])).2)[pre.length]? = some v) := by
  refine ⟨fun s => rfl, fun n => rfl, fun driver s h => ?_, fun driver n h => ?_, ?_⟩
  · simp [quote, h]
  · simp [placeholder, h]
  · rintro driver cs pre key v post rfl
    rw [buildWhereLoop_eq]
    constructor
    · simpa using whereClausesFrom_getElem driver pre key v post 0
    · simp only [List.nil_append, List.map_append, List.map_cons]
      simpa using getElem_at_append_len (pre.map Prod.snd) v (post.map Prod.snd)

/-- C3 witness: concrete instances of the hypotheses of
`C3_dialect_adapter`. -/
theorem C3_dialect_adapter_witness :
    quote "mysql" "users" = "`" ++ "users" ++ "`" ∧
    placeholder "mysql" 3 = "?" ∧
    ((buildWhereLoop "postgres" [("a", Value.int 1), ("b", Value.int 2)] ([], [])).1)[1]? =
      some (quoteIdentifier "postgres" "b"
        ++ (if isLikeValue (Value.int 2) then " LIKE " else " = ")
        ++ placeholder "postgres" 2) := by
  refine ⟨C3_dialect_adapter.2.2.1 "mysql" "users" (by decide),
    C3_dialect_adapter.2.2.2.1 "mysql" 3 (by decide), ?_⟩
  have h := (C3_dialect_adapter.2.2.2.2 "postgres"
    ([("a", Value.int 1), ("b", Value.int 2)]) [("a", Value.int 1)] "b" (Value.int 2) []
    (by decide)).1
  simpa using h

/-- C4: aggregate allow-list — `BuildAggregation` upper-cases `aggFunc` and
returns an error with empty query text and empty parameter list unless the
result is one of SUM, AVG, MIN, MAX, COUNT; `aggFunc = "DROP TABLE"` is
rejected with an error and empty query, `aggFunc = "sum"` succeeds and the
query text contains `SUM(`. -/
theorem C4_aggregate_allowlist :
    (∀ driver t col f cs g,
      (validAggFuncs.contains (toUpperStr f) = false →
        BuildAggregation driver t col f cs g =
          ("", [], some ("invalid aggregate function: " ++ toUpperStr f))) ∧
      (validAggFuncs.contains (toUpperStr f) = true →
        (BuildAggregation driver t col f cs g).2.2 = none)) ∧
    BuildAggregation "mysql" "orders" "total" "DROP TABLE" [] "" =
      ("", [], some ("invalid aggregate function: DROP TABLE")) ∧
    (BuildAggregation "mysql" "orders" "total" "sum" [] "").2.2 = none ∧
    Contains (BuildAggregation "mysql" "orders" "total" "sum" [] "").1 "SUM(" = true := by
  refine ⟨fun driver t col f cs g => ⟨fun h => ?_, fun h => ?_⟩, by decide, by decide, by decide⟩
  · have h' : toUpperStr f ∉ validAggFuncs := by simpa using h
    simp [BuildAggregation, h']
  · have h' : toUpperStr f ∈ validAggFuncs := by simpa using h
    simp [BuildAggregation, h']

/-- C4 witness: concrete instances of the hypotheses of
`C4_aggregate_allowlist`. -/
theorem C4_aggregate_allowlist_witness :
    BuildAggregation "mysql" "t" "c" "median" [] "" =
      ("", [], some ("invalid aggregate function: " ++ toUpperStr "median")) ∧
    (BuildAggregation "postgres" "t" "c" "avg" [("k", Value.int 7)] "g").2.2 = none :=
  ⟨(C4_aggregate_allowlist.1 "mysql" "t" "c" "median" [] "").1 (by decide),
    (C4_aggregate_allowlist.1 "postgres" "t" "c" "avg" [("k", Value.int 7)] "g").2 (by decide)⟩

/-- C7: pagination — the query text of `BuildSelect` is the limit-free and
offset-free text followed by a ` LIMIT <limit>` clause exactly when
`limit > 0` and then an ` OFFSET <offset>` clause exactly when `offset > 0`
(so LIMIT precedes OFFSET and neither appears otherwise); and the end-to-end
scenario `BuildSelect("users", 'status'='active', 10, 0, "created_at DESC")`
on the mysql dialect produces exactly the documented text with no OFFSET
clause and parameter list `["active"]`. -/
theorem C7_pagination :
    (∀ driver t cs ob limit offset,
      (BuildSelect driver t cs limit offset ob).1 =
        (BuildSelect driver t cs 0 0 ob).1
          ++ (if 0 < limit then " LIMIT " ++ toString limit else "")
          ++ (if 0 < offset then " OFFSET " ++ toString offset else "")) ∧
    BuildSelect "mysql" "users" [("status", Value.str "active")] 10 0 "created_at DESC" =
      ("SELECT * FROM `users` WHERE `status` = ? ORDER BY created_at DESC LIMIT 10",
        [Value.str "active"]) := by
  constructor
  · intro driver t cs ob limit offset
    simp only [BuildSelect]
    by_cases hl : 0 < limit <;> by_cases ho : 0 < offset <;>
      simp [hl, ho, String.append_assoc]
  · decide

/-- C2 counterexample: an invalid table name and an invalid condition key do
NOT make the builders fail — `BuildSelect` and `BuildCount` have no error
result at all and quote the invalid names into the query text, and
`BuildAggregation` returns `none` for its error while doing the same. -/
theorem C2_counterexample :
    isValidIdentifier "bad name" = false ∧
    isValidIdentifier "bad key" = false ∧
    BuildSelect "mysql" "bad name" [("bad key", Value.int 1)] 0 0 "" =
      ("SELECT * FROM `bad name` WHERE `bad key` = ?", [Value.int 1]) ∧
    BuildCount "mysql" "bad name" [] = ("SELECT COUNT(*) FROM `bad name`", []) ∧
    BuildAggregation "mysql" "bad name" "total" "SUM" [] "" =
      ("SELECT SUM(`total`) as result FROM `bad name`", [], none) := by
  refine ⟨by decide, by decide, by decide, by decide, by decide⟩

/-- C2 amended: a table name or condition-map key that fails identifier
validation does not cause the query-building operation to fail; `BuildSelect`
and `BuildCount` (which have no error return) and `BuildAggregation` (whose
only error is the aggregate allow-list) all proceed, quoting the
quote-stripped invalid name into the query text. -/
theorem C2_invalid_identifiers_quoted_not_rejected :
    ∀ driver t k v, isValidIdentifier (trimQuotes t) = false →
      isValidIdentifier (trimQuotes k) = false →
      (BuildSelect driver t [(k, v)] 0 0 "").1 =
        "SELECT * FROM " ++ quote driver (trimQuotes t) ++ " WHERE "
          ++ (quote driver (trimQuotes k)
            ++ (if isLikeValue v then " LIKE " else " = ") ++ placeholder driver 1) ∧
      (BuildCount driver t [(k, v)]).1 =
        "SELECT COUNT(*) FROM " ++ quote driver (trimQuotes t) ++ " WHERE "
          ++ (quote driver (trimQuotes k)
            ++ (if isLikeValue v then " LIKE " else " = ") ++ placeholder driver 1) ∧
      (BuildAggregation driver t "c" "SUM" [(k, v)] "").2.2 = none := by
  intro driver t k v _ _
  refine ⟨?_, ?_, ?_⟩
  · simp [BuildSelect, buildWhereLoop_eq, whereClausesFrom, String.intercalate,
      String.intercalate.go, quoteIdentifier_eq_quote_trim, String.append_assoc]
  · simp [BuildCount, buildWhereLoop_eq, whereClausesFrom, String.intercalate,
      String.intercalate.go, quoteIdentifier_eq_quote_trim, String.append_assoc]
  · simp [BuildAggregation, show toUpperStr "SUM" ∈ validAggFuncs from by decide]

/-- C2 amended witness: concrete instance of
`C2_invalid_identifiers_quoted_not_rejected`. -/
theorem C2_invalid_identifiers_quoted_not_rejected_witness :
    (BuildSelect "mysql" "bad name" [("bad key", Value.int 1)] 0 0 "").1 =
      "SELECT * FROM " ++ quote "mysql" (trimQuotes "bad name") ++ " WHERE "
        ++ (quote "mysql" (trimQuotes "bad key")
          ++ (if isLikeValue (Value.int 1) then " LIKE " else " = ")
          ++ placeholder "mysql" 1) ∧
    (BuildCount "mysql" "bad name" [("bad key", Value.int 1)]).1 =
      "SELECT COUNT(*) FROM " ++ quote "mysql" (trimQuotes "bad name") ++ " WHERE "
        ++ (quote "mysql" (trimQuotes "bad key")
          ++ (if isLikeValue (Value.int 1) then " LIKE " else " = ")
          ++ placeholder "mysql" 1) ∧
    (BuildAggregation "mysql" "bad name" "c" "SUM" [("bad key", Value.int 1)] "").2.2 = none :=
  C2_invalid_identifiers_quoted_not_rejected "mysql" "bad name" "bad key" (Value.int 1)
    (by decide) (by decide)

/-- C9 counterexample: two iteration orders of the same two-entry condition
map (the Go map range order is unspecified) yield different query texts, so
two invocations on the same inputs need not agree. -/
theorem C9_counterexample :
    ([("a", Value.str "x"), ("b", Value.str "y")] : List (String × Value)).Perm
      [("b", Value.str "y"), ("a", Value.str "x")] ∧
    (BuildSelect "mysql" "t" [("a", Value.str "x"), ("b", Value.str "y")] 0 0 "").1 ≠
      (BuildSelect "mysql" "t" [("b", Value.str "y"), ("a", Value.str "x")] 0 0 "").1 := by
  exact ⟨by decide, by decide⟩

/-- C9 amended: for any one iteration order of the condition map, the query
text and the parameter list stay in lock-step — the parameter list is the
condition values in clause-emission order, and the clause at 0-based index
`i` uses placeholder position `i + 1` while the parameter list holds that
condition's value at index `i`.  (Identity of outputs across invocations
holds only for a fixed iteration order; the Go map range order itself is not
deterministic, see the counterexample.) -/
theorem C9_lockstep :
    ∀ driver t cs limit offset ob,
      (BuildSelect driver t cs limit offset ob).2 = cs.map Prod.snd ∧
      (BuildCount driver t cs).2 = cs.map Prod.snd ∧
      ∀ pre key v post, cs = pre ++ (key, v) :: post →
        ((buildWhereLoop driver cs ([], [])).1)[pre.length]? =
          some (quoteIdentifier driver key
            ++ (if isLikeValue v then " LIKE " else " = ")
            ++ placeholder driver (pre.length + 1)) ∧
        ((BuildSelect driver t cs limit offset ob).2)[pre.length]? = some v := by
  intro driver t cs limit offset ob
  refine ⟨?_, ?_, ?_⟩
  · simp [BuildSelect, buildWhereLoop_eq]
  · simp [BuildCount, buildWhereLoop_eq]
  · rintro pre key v post rfl
    constructor
    · rw [buildWhereLoop_eq]
      simpa using whereClausesFrom_getElem driver pre key v post 0
    · simp only [BuildSelect, buildWhereLoop_eq, List.nil_append, List.map_append,
        List.map_cons]
      simpa using getElem_at_append_len (pre.map Prod.snd) v (post.map Prod.snd)

/-- C9 amended witness: concrete instance of `C9_lockstep`. -/
theorem C9_lockstep_witness :
    ((buildWhereLoop "postgres" [("a", Value.int 1)] ([], [])).1)[0]? =
      some (quoteIdentifier "postgres" "a"
        ++ (if isLikeValue (Value.int 1) then " LIKE " else " = ")
        ++ placeholder "postgres" 1) := by
  have h := (C9_lockstep "postgres" "t" [("a", Value.int 1)] 5 2 "").2.2
    [] "a" (Value.int 1) [] rfl
  simpa using h.1

/-- The SQL metacharacter payload of the spec's no-injection scenario:
a single quote (char 39) followed by `; DROP TABLE users; ` and two hyphens
(char 45). -/
def sqlPayload : String :=
  ⟨Char.ofNat 39 :: "; DROP TABLE users; ".data ++ [Char.ofNat 45, Char.ofNat 45]⟩

set_option maxRecDepth 8192 in
/-- C8: the superseding `BuildTableSchema` (part_010) rejects every invalid
table name with a hard error and empty query, while the superseded
`BuildTableSchema` still in `src/db/query_builder.go` splices the unvalidated
table name straight into the catalog SQL text of both dialects with no way to
report an error — the defect the claim (and the package's own "ALWAYS uses
parameterized queries" comment) rules out. -/
theorem C8_table_schema_lookup :
    (∀ driver t s, isValidIdentifier t = false →
      BuildTableSchema driver t s = ("", [], some ("invalid table name: " ++ t))) ∧
    isValidIdentifier "users; x" = false ∧
    Contains (legacyBuildTableSchema "mysql" "users; x" "") "users; x" = true ∧
    Contains (legacyBuildTableSchema "postgres" "users; x" "") "users; x" = true ∧
    BuildTableSchema "mysql" "users; x" "" =
      ("", [], some ("invalid table name: users; x")) ∧
    BuildTableSchema "postgres" "users; x" "" =
      ("", [], some ("invalid table name: users; x")) := by
  refine ⟨fun driver t s h => ?_, by decide, by decide, by decide, by decide, by decide⟩
  simp [BuildTableSchema, h]

/-- C8 witness: concrete instance of the universal part of
`C8_table_schema_lookup`. -/
theorem C8_table_schema_lookup_witness :
    BuildTableSchema "postgres" "users; x" "myschema" =
      ("", [], some ("invalid table name: users; x")) :=
  C8_table_schema_lookup.1 "postgres" "users; x" "myschema" (by decide)

/-- C6: WHERE operator selection — in `BuildSelect`/`BuildCount` a condition
whose value is a string containing `%` or `_` emits a LIKE clause and every
other condition emits `=` (clause at 0-based index `i` is the quoted key, the
operator, and placeholder position `i + 1`); clauses are joined with ` AND `
after a ` WHERE ` separator; the values land in the parameter list either
way; and `BuildAggregation`'s loop always emits `=`, with no LIKE
heuristic. -/
theorem C6_where_operator_selection :
    (∀ s, isLikeValue (Value.str s) = (Contains s "%" || Contains s "_")) ∧
    (∀ n, isLikeValue (Value.int n) = false) ∧
    (∀ b, isLikeValue (Value.bool b) = false) ∧
    (∀ driver cs (pre : List (String × Value)) key v post,
      cs = pre ++ (key, v) :: post →
      ((buildWhereLoop driver cs ([], [])).1)[pre.length]? =
        some (quoteIdentifier driver key
          ++ (if isLikeValue v then " LIKE " else " = ")
          ++ placeholder driver (pre.length + 1)) ∧
      ((buildWhereLoopAgg driver cs ([], [])).1)[pre.length]? =
        some (quoteIdentifier driver key ++ " = " ++ placeholder driver (pre.length + 1))) ∧
    (∀ driver t cs limit offset ob, cs ≠ [] → ∃ tail,
      (BuildSelect driver t cs limit offset ob).1 =
        "SELECT * FROM " ++ quoteIdentifier driver t ++ " WHERE "
          ++ String.intercalate " AND " ((buildWhereLoop driver cs ([], [])).1) ++ tail ∧
      (BuildSelect driver t cs limit offset ob).2 = cs.map Prod.snd) ∧
    (∀ driver t cs, cs ≠ [] →
      (BuildCount driver t cs).1 =
        "SELECT COUNT(*) FROM " ++ quoteIdentifier driver t ++ " WHERE "
          ++ String.intercalate " AND " ((buildWhereLoop driver cs ([], [])).1)) := by
  refine ⟨fun s => rfl, fun n => rfl, fun b => rfl, ?_, ?_, ?_⟩
  · rintro driver cs pre key v post rfl
    constructor
    · rw [buildWhereLoop_eq]
      simpa using whereClausesFrom_getElem driver pre key v post 0
    · rw [buildWhereLoopAgg_eq]
      simpa using aggClausesFrom_getElem driver pre key v post 0
  · intro driver t cs limit offset ob h
    have hlen : 0 < cs.length := List.length_pos.mpr h
    refine ⟨(if ob ≠ "" then (if isValidOrderBy ob then " ORDER BY " ++ ob else "") else "")
        ++ (if 0 < limit then " LIMIT " ++ toString limit else "")
        ++ (if 0 < offset then " OFFSET " ++ toString offset else ""), ?_, ?_⟩
    · simp only [BuildSelect]
      by_cases hob : ob = "" <;> by_cases hv : isValidOrderBy ob <;>
        by_cases hl : 0 < limit <;> by_cases ho : 0 < offset <;>
          simp [hlen, hob, hv, hl, ho, String.append_assoc]
    · simp [BuildSelect, buildWhereLoop_eq]
  · intro driver t cs h
    have hlen : 0 < cs.length := List.length_pos.mpr h
    simp [BuildCount, hlen]

/-- C6 witness: concrete instances of the hypotheses of
`C6_where_operator_selection`. -/
theorem C6_where_operator_selection_witness :
    ((buildWhereLoop "mysql" [("name", Value.str "%phone%")] ([], [])).1)[0]? =
      some (quoteIdentifier "mysql" "name"
        ++ (if isLikeValue (Value.str "%phone%") then " LIKE " else " = ")
        ++ placeholder "mysql" 1) ∧
    (BuildCount "mysql" "users" [("status", Value.str "active")]).1 =
      "SELECT COUNT(*) FROM " ++ quoteIdentifier "mysql" "users" ++ " WHERE "
        ++ String.intercalate " AND "
          ((buildWhereLoop "mysql" [("status", Value.str "active")] ([], [])).1) := by
  constructor
  · have h := (C6_where_operator_selection.2.2.2.1 "mysql"
      [("name", Value.str "%phone%")] [] "name" (Value.str "%phone%") [] rfl).1
    simpa using h
  · exact C6_where_operator_selection.2.2.2.2.2 "mysql" "users"
      [("status", Value.str "active")] (by decide)

/-- C1: no-injection invariant for condition values — the parameter list of
each builder is exactly the condition values in clause-emission order; the
query text depends on the condition values only through their LIKE flag (for
`BuildAggregation`, only through the keys), so a value is never spliced into
the text; and for the spec's metacharacter payload scenario the built text
does not contain the payload substring while the parameter list does. -/
theorem C1_values_only_in_params :
    (∀ driver t cs limit offset ob,
      (BuildSelect driver t cs limit offset ob).2 = cs.map Prod.snd) ∧
    (∀ driver t cs, (BuildCount driver t cs).2 = cs.map Prod.snd) ∧
    (∀ driver t col f cs g, validAggFuncs.contains (toUpperStr f) = true →
      (BuildAggregation driver t col f cs g).2.1 = cs.map Prod.snd) ∧
    (∀ driver t limit offset ob cs cs',
      cs.map Prod.fst = cs'.map Prod.fst →
      cs.map (fun p => isLikeValue p.2) = cs'.map (fun p => isLikeValue p.2) →
      (BuildSelect driver t cs limit offset ob).1 =
        (BuildSelect driver t cs' limit offset ob).1) ∧
    (∀ driver t cs cs',
      cs.map Prod.fst = cs'.map Prod.fst →
      cs.map (fun p => isLikeValue p.2) = cs'.map (fun p => isLikeValue p.2) →
      (BuildCount driver t cs).1 = (BuildCount driver t cs').1) ∧
    (∀ driver t col f g cs cs',
      cs.map Prod.fst = cs'.map Prod.fst →
      (BuildAggregation driver t col f cs g).1 =
        (BuildAggregation driver t col f cs' g).1) ∧
    (Contains (BuildSelect "mysql" "users"
        [("name", Value.str sqlPayload), ("id", Value.str "1 OR 1=1")] 10 0 "").1
        sqlPayload = false ∧
      Value.str sqlPayload ∈ (BuildSelect "mysql" "users"
        [("name", Value.str sqlPayload), ("id", Value.str "1 OR 1=1")] 10 0 "").2) := by
  refine ⟨?_, ?_, ?_, ?_, ?_, ?_, by decide, by decide⟩
  · intro driver t cs limit offset ob
    simp [BuildSelect, buildWhereLoop_eq]
  · intro driver t cs
    simp [BuildCount, buildWhereLoop_eq]
  · intro driver t col f cs g h
    have h' : toUpperStr f ∈ validAggFuncs := by simpa using h
    simp [BuildAggregation, h', buildWhereLoopAgg_eq]
  · intro driver t limit offset ob cs cs' hk hf
    have hlen : cs.length = cs'.length := by
      have := congrArg List.length hk
      simpa using this
    simp only [BuildSelect, buildWhereLoop_eq, List.nil_append, List.length_nil]
    rw [whereClausesFrom_congr driver cs cs' 0 hk hf, hlen]
  · intro driver t cs cs' hk hf
    have hlen : cs.length = cs'.length := by
      have := congrArg List.length hk
      simpa using this
    simp only [BuildCount, buildWhereLoop_eq, List.nil_append, List.length_nil]
    rw [whereClausesFrom_congr driver cs cs' 0 hk hf, hlen]
  · intro driver t col f g cs cs' hk
    have hlen : cs.length = cs'.length := by
      have := congrArg List.length hk
      simpa using this
    simp only [BuildAggregation, buildWhereLoopAgg_eq, List.nil_append, List.length_nil]
    rw [aggClausesFrom_congr driver cs cs' 0 hk, hlen]
    cases hmb : validAggFuncs.contains (toUpperStr f) <;> simp [hmb]

/-- C1 witness: concrete instances of the hypotheses of
`C1_values_only_in_params`. -/
theorem C1_values_only_in_params_witness :
    (BuildSelect "postgres" "t" [("a", Value.str "xx")] 1 1 "").1 =
      (BuildSelect "postgres" "t" [("a", Value.str "yy")] 1 1 "").1 ∧
    (BuildAggregation "mysql" "t" "c" "sum" [("k", Value.int 3)] "").2.1 =
      [Value.int 3] := by
  constructor
  · exact C1_values_only_in_params.2.2.2.1 "postgres" "t" 1 1 ""
      [("a", Value.str "xx")] [("a", Value.str "yy")] (by decide) (by decide)
  · have h := C1_values_only_in_params.2.2.1 "mysql" "t" "c" "sum"
      [("k", Value.int 3)] "" (by decide)
    simpa using h

/-! ### Character lemmas for the ORDER BY validator -/

lemma toNat_charOfNat {n : Nat} (h : n.isValidChar) : (Char.ofNat n).toNat = n := by
  rw [Char.ofNat, dif_pos h]
  rfl

lemma toUpper_toNat (c : Char) :
    (Char.toUpper c).toNat = if 97 ≤ c.toNat ∧ c.toNat ≤ 122 then c.toNat - 32 else c.toNat := by
  simp only [Char.toUpper]
  split
  · next h => exact toNat_charOfNat (Or.inl (by omega))
  · next h => rfl

lemma char_eq_iff_toNat (c d : Char) : c = d ↔ c.toNat = d.toNat := by
  constructor
  · intro h; rw [h]
  · intro h
    have := congrArg Char.ofNat h
    rwa [Char.ofNat_toNat, Char.ofNat_toNat] at this

lemma isSpaceChar_eq (c : Char) : isSpaceChar c =
    decide (c.toNat = 32 ∨ c.toNat = 9 ∨ c.toNat = 10 ∨ c.toNat = 11 ∨
      c.toNat = 12 ∨ c.toNat = 13) := by
  simp [isSpaceChar, Bool.or_assoc]

lemma isIdentChar_eq (c : Char) : isIdentChar c =
    decide ((97 ≤ c.toNat ∧ c.toNat ≤ 122) ∨ (65 ≤ c.toNat ∧ c.toNat ≤ 90) ∨
      (48 ≤ c.toNat ∧ c.toNat ≤ 57) ∨ c.toNat = 95 ∨ c.toNat = 46) := by
  simp [isIdentChar, Bool.or_assoc]

lemma isSpaceChar_toUpper (c : Char) : isSpaceChar (Char.toUpper c) = isSpaceChar c := by
  rw [isSpaceChar_eq, isSpaceChar_eq, decide_eq_decide, toUpper_toNat]
  by_cases hc : 97 ≤ c.toNat ∧ c.toNat ≤ 122
  · rw [if_pos hc]; omega
  · rw [if_neg hc]

lemma isIdentChar_toUpper (c : Char) : isIdentChar (Char.toUpper c) = isIdentChar c := by
  rw [isIdentChar_eq, isIdentChar_eq, decide_eq_decide, toUpper_toNat]
  by_cases hc : 97 ≤ c.toNat ∧ c.toNat ≤ 122
  · rw [if_pos hc]; omega
  · rw [if_neg hc]

lemma toUpper_eq_comma (c : Char) : (Char.toUpper c = ',') ↔ (c = ',') := by
  rw [char_eq_iff_toNat, char_eq_iff_toNat, toUpper_toNat,
    show (','.toNat) = 44 from rfl]
  by_cases hc : 97 ≤ c.toNat ∧ c.toNat ≤ 122
  · rw [if_pos hc]; omega
  · rw [if_neg hc]

lemma isSpaceChar_comma : isSpaceChar ',' = false := rfl

/-! ### List lemmas for the ORDER BY validator -/

lemma isValidIdentList_map_toUpper (l : List Char) :
    isValidIdentList (l.map Char.toUpper) = isValidIdentList l := by
  cases l with
  | nil => rfl
  | cons c cs =>
    show (List.map Char.toUpper (c :: cs)).all isIdentChar = (c :: cs).all isIdentChar
    rw [List.all_map]
    congr 1
    funext x
    exact isIdentChar_toUpper x

lemma splitOnChar_ne_nil (sep : Char) : ∀ l, splitOnChar sep l ≠ [] := by
  intro l
  cases l with
  | nil => simp [splitOnChar]
  | cons c rest =>
    simp only [splitOnChar]
    split <;> simp

lemma splitOnChar_no_sep (sep : Char) :
    ∀ w, (∀ c ∈ w, c ≠ sep) → splitOnChar sep w = [w] := by
  intro w
  induction w with
  | nil => intro _; rfl
  | cons c rest ih =>
    intro hw
    have hc : c ≠ sep := hw c (by simp)
    have hrest : ∀ x ∈ rest, x ≠ sep := fun x hm => hw x (by simp [hm])
    simp [splitOnChar, ih hrest, hc]

lemma splitOnChar_cons_of_ne (sep c : Char) (rest : List Char) (hc : c ≠ sep)
    (hd : List Char) (tl : List (List Char)) (h : splitOnChar sep rest = hd :: tl) :
    splitOnChar sep (c :: rest) = (c :: hd) :: tl := by
  simp [splitOnChar, h, hc]

lemma splitOnChar_cons_of_eq (sep c : Char) (rest : List Char) (hc : c = sep) :
    splitOnChar sep (c :: rest) = [] :: splitOnChar sep rest := by
  simp [splitOnChar, hc]

/-- Apply `f` to the head piece only. -/
def mapHead (f : List Char → List Char) : List (List Char) → List (List Char)
  | [] => []
  | x :: xs => f x :: xs

/-- Apply `f` to the last piece only. -/
def mapLast (f : List Char → List Char) : List (List Char) → List (List Char)
  | [] => []
  | [x] => [f x]
  | x :: y :: xs => x :: mapLast f (y :: xs)

lemma splitOnChar_append_left (sep : Char) :
    ∀ (a : List Char), (∀ c ∈ a, c ≠ sep) → ∀ b,
      splitOnChar sep (a ++ b) = mapHead (fun x => a ++ x) (splitOnChar sep b) := by
  intro a
  induction a with
  | nil =>
    intro _ b
    cases h : splitOnChar sep b with
    | nil => exact absurd h (splitOnChar_ne_nil sep b)
    | cons hd tl => simp [mapHead, h]
  | cons c a' ih =>
    intro ha b
    have hc : c ≠ sep := ha c (by simp)
    have ha' : ∀ x ∈ a', x ≠ sep := fun x hm => ha x (by simp [hm])
    cases h : splitOnChar sep b with
    | nil => exact absurd h (splitOnChar_ne_nil sep b)
    | cons hd tl =>
      have hrec : splitOnChar sep (a' ++ b) = (a' ++ hd) :: tl := by
        rw [ih ha' b, h]; rfl
      rw [List.cons_append, splitOnChar_cons_of_ne sep c (a' ++ b) hc _ _ hrec]
      simp [mapHead]

lemma splitOnChar_append_right (sep : Char) :
    ∀ (a w : List Char), (∀ c ∈ w, c ≠ sep) →
      splitOnChar sep (a ++ w) = mapLast (fun x => x ++ w) (splitOnChar sep a) := by
  intro a
  induction a with
  | nil =>
    intro w hw
    simp [splitOnChar_no_sep sep w hw, splitOnChar, mapLast]
  | cons c a' ih =>
    intro w hw
    cases h : splitOnChar sep a' with
    | nil => exact absurd h (splitOnChar_ne_nil sep a')
    | cons hd tl =>
      have hrec : splitOnChar sep (a' ++ w) = mapLast (fun x => x ++ w) (hd :: tl) := by
        rw [ih w hw, h]
      by_cases hc : c = sep
      · rw [List.cons_append, splitOnChar_cons_of_eq sep c (a' ++ w) hc, hrec,
          splitOnChar_cons_of_eq sep c a' hc, h]
        cases tl <;> simp [mapLast]
      · cases tl with
        | nil =>
          rw [List.cons_append,
            splitOnChar_cons_of_ne sep c (a' ++ w) hc (hd ++ w) []
              (by rw [hrec]; rfl),
            splitOnChar_cons_of_ne sep c a' hc hd [] h]
          simp [mapLast]
        | cons t ts =>
          rw [List.cons_append,
            splitOnChar_cons_of_ne sep c (a' ++ w) hc hd (mapLast (fun x => x ++ w) (t :: ts))
              (by rw [hrec]; rfl),
            splitOnChar_cons_of_ne sep c a' hc hd (t :: ts) h]
          simp [mapLast]

lemma all_mapHead (g : List Char → Bool) (f : List Char → List Char)
    (hg : ∀ x, g (f x) = g x) : ∀ parts, (mapHead f parts).all g = parts.all g := by
  intro parts
  cases parts <;> simp [mapHead, hg]

lemma all_mapLast (g : List Char → Bool) (f : List Char → List Char)
    (hg : ∀ x, g (f x) = g x) : ∀ parts, (mapLast f parts).all g = parts.all g := by
  intro parts
  induction parts with
  | nil => rfl
  | cons x xs ih =>
    cases xs with
    | nil => simp [mapLast, hg]
    | cons y ys => simp only [mapLast, List.all_cons, ih]

lemma splitOnChar_map_toUpper :
    ∀ l, splitOnChar ',' (l.map Char.toUpper) =
      (splitOnChar ',' l).map (List.map Char.toUpper) := by
  intro l
  induction l with
  | nil => rfl
  | cons c rest ih =>
    cases h : splitOnChar ',' rest with
    | nil => exact absurd h (splitOnChar_ne_nil ',' rest)
    | cons hd tl =>
      have hrec : splitOnChar ',' (rest.map Char.toUpper) =
          (hd.map Char.toUpper) :: tl.map (List.map Char.toUpper) := by
        rw [ih, h]; rfl
      by_cases hc : c = ','
      · rw [List.map_cons, splitOnChar_cons_of_eq ',' (Char.toUpper c)
            (rest.map Char.toUpper) ((toUpper_eq_comma c).mpr hc),
          splitOnChar_cons_of_eq ',' c rest hc, hrec, h]
        rfl
      · rw [List.map_cons, splitOnChar_cons_of_ne ',' (Char.toUpper c)
            (rest.map Char.toUpper) (fun hu => hc ((toUpper_eq_comma c).mp hu))
            _ _ hrec,
          splitOnChar_cons_of_ne ',' c rest hc hd tl h]
        rfl

lemma fieldsAux_map_toUpper (l : List Char) : ∀ cur,
    fieldsAux (cur.map Char.toUpper) (l.map Char.toUpper) =
      (fieldsAux cur l).map (List.map Char.toUpper) := by
  induction l with
  | nil =>
    intro cur
    cases cur <;> simp [fieldsAux]
  | cons c rest ih =>
    intro cur
    simp only [List.map_cons, fieldsAux, isSpaceChar_toUpper]
    by_cases hs : isSpaceChar c
    · rw [if_pos hs, if_pos hs]
      have h0 : fieldsAux [] (rest.map Char.toUpper) =
          (fieldsAux [] rest).map (List.map Char.toUpper) := by simpa using ih []
      cases cur with
      | nil => simpa using h0
      | cons x xs => simp [h0]
    · rw [if_neg hs, if_neg hs]
      simpa using ih (c :: cur)

lemma fields_map_toUpper (l : List Char) :
    fields (l.map Char.toUpper) = (fields l).map (List.map Char.toUpper) :=
  fieldsAux_map_toUpper l []

lemma fieldsAux_all_ws : ∀ (w : List Char), (∀ c ∈ w, isSpaceChar c = true) → ∀ cur,
    fieldsAux cur w = if cur.isEmpty then [] else [cur.reverse] := by
  intro w
  induction w with
  | nil => intro _ cur; rfl
  | cons c rest ih =>
    intro hw cur
    have hc : isSpaceChar c = true := hw c (by simp)
    have hrest : ∀ x ∈ rest, isSpaceChar x = true := fun x hm => hw x (by simp [hm])
    simp only [fieldsAux, hc, if_true]
    cases cur with
    | nil => simpa using ih hrest []
    | cons x xs => simp [ih hrest []]

lemma fieldsAux_append_ws (w : List Char) (hw : ∀ c ∈ w, isSpaceChar c = true) :
    ∀ (l : List Char) cur, fieldsAux cur (l ++ w) = fieldsAux cur l := by
  intro l
  induction l with
  | nil =>
    intro cur
    rw [List.nil_append, fieldsAux_all_ws w hw cur]
    rfl
  | cons c rest ih =>
    intro cur
    simp only [List.cons_append, fieldsAux]
    by_cases hs : isSpaceChar c <;> simp [hs, ih]

lemma fields_append_ws (w : List Char) (hw : ∀ c ∈ w, isSpaceChar c = true)
    (l : List Char) : fields (l ++ w) = fields l :=
  fieldsAux_append_ws w hw l []

lemma fields_ws_append (w : List Char) (hw : ∀ c ∈ w, isSpaceChar c = true) :
    ∀ l, fields (w ++ l) = fields l := by
  induction w with
  | nil => intro l; rfl
  | cons c rest ih =>
    intro l
    have hc : isSpaceChar c = true := hw c (by simp)
    have hrest : ∀ x ∈ rest, isSpaceChar x = true := fun x hm => hw x (by simp [hm])
    have := ih hrest
    simp only [List.cons_append, fields, fieldsAux, hc, if_true]
    exact this (l := l)

lemma exists_trim_decomp (l : List Char) :
    ∃ w1 w2, (∀ c ∈ w1, isSpaceChar c = true) ∧ (∀ c ∈ w2, isSpaceChar c = true) ∧
      l = w1 ++ trimSpaceList l ++ w2 := by
  refine ⟨l.takeWhile isSpaceChar,
    ((l.dropWhile isSpaceChar).reverse.takeWhile isSpaceChar).reverse, ?_, ?_, ?_⟩
  · intro c hc; exact List.mem_takeWhile_imp hc
  · intro c hc
    rw [List.mem_reverse] at hc
    exact List.mem_takeWhile_imp hc
  · conv_lhs => rw [← List.takeWhile_append_dropWhile (p := isSpaceChar) (l := l)]
    rw [List.append_assoc]
    congr 1
    conv_lhs => rw [← List.reverse_reverse (l.dropWhile isSpaceChar),
      ← List.takeWhile_append_dropWhile (p := isSpaceChar)
        (l := (l.dropWhile isSpaceChar).reverse)]
    rw [List.reverse_append]
    rfl

lemma fields_trimSpace (l : List Char) : fields (trimSpaceList l) = fields l := by
  obtain ⟨w1, w2, hw1, hw2, hdec⟩ := exists_trim_decomp l
  conv_rhs => rw [hdec]
  rw [fields_append_ws w2 hw2, fields_ws_append w1 hw1]

lemma trimSpace_map_toUpper (l : List Char) :
    trimSpaceList (l.map Char.toUpper) = (trimSpaceList l).map Char.toUpper := by
  have hcomp : (fun c => isSpaceChar c) ∘ Char.toUpper = fun c => isSpaceChar c := by
    funext c; exact isSpaceChar_toUpper c
  unfold trimSpaceList
  rw [List.dropWhile_map, hcomp, ← List.map_reverse, List.dropWhile_map, hcomp,
    ← List.map_reverse]

/-! ### The spec-side ORDER BY validator (refinement comparison for C5) -/

/-- Per-part check following the claim's words: after splitting the part on
whitespace, the first token must pass identifier validation and every
subsequent token must case-insensitively equal `ASC` or `DESC`. -/
def partCheck (part : List Char) : Bool :=
  match fields part with
  | [] => true
  | t0 :: rest =>
    isValidIdentList t0 &&
      rest.all (fun t => t.map Char.toUpper == "ASC".data || t.map Char.toUpper == "DESC".data)

/-- The ORDER BY validator as the claim words it: split `s` on commas and
check every comma-separated part with `partCheck`. -/
def specValidOrderBy (s : String) : Bool :=
  (splitOnChar ',' s.data).all partCheck

lemma partCheck_eq_checkUpper (part : List Char) :
    checkOrderTokens (fields (trimSpaceList (part.map Char.toUpper))) = partCheck part := by
  rw [trimSpace_map_toUpper, fields_map_toUpper, fields_trimSpace]
  unfold partCheck
  cases hf : fields part with
  | nil => rfl
  | cons t0 rest =>
    simp only [List.map_cons, checkOrderTokens]
    rw [isValidIdentList_map_toUpper, List.all_map]
    rfl

lemma partCheck_ws_left (w : List Char) (hw : ∀ c ∈ w, isSpaceChar c = true)
    (x : List Char) : partCheck (w ++ x) = partCheck x := by
  unfold partCheck
  rw [fields_ws_append w hw]

lemma partCheck_ws_right (w : List Char) (hw : ∀ c ∈ w, isSpaceChar c = true)
    (x : List Char) : partCheck (x ++ w) = partCheck x := by
  unfold partCheck
  rw [fields_append_ws w hw]

lemma validOrderBy_eq_spec (l : List Char) :
    isValidOrderByList l = (splitOnChar ',' l).all partCheck := by
  simp only [isValidOrderByList]
  rw [splitOnChar_map_toUpper, List.all_map]
  have hfun : ((fun part => checkOrderTokens (fields (trimSpaceList part)))
      ∘ (List.map Char.toUpper)) = partCheck := by
    funext part
    exact partCheck_eq_checkUpper part
  rw [hfun]
  obtain ⟨w1, w2, hw1, hw2, hdec⟩ := exists_trim_decomp l
  have hw1c : ∀ c ∈ w1, c ≠ ',' := by
    intro c hm hceq
    have hs := hw1 c hm
    rw [hceq, isSpaceChar_comma] at hs
    simp at hs
  have hw2c : ∀ c ∈ w2, c ≠ ',' := by
    intro c hm hceq
    have hs := hw2 c hm
    rw [hceq, isSpaceChar_comma] at hs
    simp at hs
  conv_rhs => rw [hdec]
  rw [List.append_assoc, splitOnChar_append_left ',' w1 hw1c (trimSpaceList l ++ w2),
    splitOnChar_append_right ',' (trimSpaceList l) w2 hw2c,
    all_mapHead partCheck _ (fun x => partCheck_ws_left w1 hw1 x),
    all_mapLast partCheck _ (fun x => partCheck_ws_right w2 hw2 x)]

/-- C5: the ORDER BY validator accepts exactly the clauses described by the
spec (split on commas, each part's first whitespace-token passes identifier
validation, every later token is case-insensitively ASC or DESC — any
violation anywhere rejects the whole clause); and `BuildSelect` appends
` ORDER BY ` followed by the clause exactly when the validator accepts a
non-empty clause, otherwise it silently omits ordering and emits the rest of
the query (WHERE, LIMIT, OFFSET) and the parameter list unchanged. -/
theorem C5_orderby_validation :
    (∀ s : String, isValidOrderBy s = specValidOrderBy s) ∧
    (∀ driver t cs limit offset ob, isValidOrderBy ob = false →
      BuildSelect driver t cs limit offset ob = BuildSelect driver t cs limit offset "") ∧
    (∀ driver t cs limit offset ob, ob ≠ "" → isValidOrderBy ob = true →
      ∃ pre post,
        (BuildSelect driver t cs limit offset "").1 = pre ++ post ∧
        (BuildSelect driver t cs limit offset ob).1 = pre ++ " ORDER BY " ++ ob ++ post ∧
        (BuildSelect driver t cs limit offset ob).2 =
          (BuildSelect driver t cs limit offset "").2) := by
  refine ⟨fun s => validOrderBy_eq_spec s.data, ?_, ?_⟩
  · intro driver t cs limit offset ob h
    by_cases hob : ob = ""
    · rw [hob]
    · simp [BuildSelect, hob, h]
  · intro driver t cs limit offset ob hob hv
    refine ⟨(BuildSelect driver t cs 0 0 "").1,
      (if 0 < limit then " LIMIT " ++ toString limit else "")
        ++ (if 0 < offset then " OFFSET " ++ toString offset else ""), ?_, ?_, ?_⟩
    · simp only [BuildSelect]
      by_cases hl : 0 < limit <;> by_cases ho : 0 < offset <;>
        simp [hl, ho, String.append_assoc]
    · simp only [BuildSelect]
      by_cases hl : 0 < limit <;> by_cases ho : 0 < offset <;>
        simp [hob, hv, hl, ho, String.append_assoc]
    · simp [BuildSelect]

/-- C5 witness: concrete instances of the hypotheses of
`C5_orderby_validation`. -/
theorem C5_orderby_validation_witness :
    isValidOrderBy "created_at DESC, id ASC" = specValidOrderBy "created_at DESC, id ASC" ∧
    BuildSelect "mysql" "t" [] 5 0 "created_at; x" = BuildSelect "mysql" "t" [] 5 0 "" :=
  ⟨C5_orderby_validation.1 "created_at DESC, id ASC",
    C5_orderby_validation.2.1 "mysql" "t" [] 5 0 "created_at; x" (by decide)⟩

end DB
